import Mathlib

/-!
Shallow embedding of `pairs.go` from the git-duet repository.

Strings are modelled at the character level as `List Char`.  The two
side-effecting collaborators of `pairs.go` — the external email-lookup
command (`exec.Command` in `buildEmail`) and the Go `text/template`
engine (`template.Parse` / `template.Execute`) — are external to the
repository and are modelled as an explicit oracle record `Oracles`:
`runLookup` is the deterministic behaviour of the configured command on
its three positional arguments, `renderTemplate` is the combined
parse-and-render step of the template engine (either can fail, mirroring
the two `err` returns in the source).  YAML parsing (`yaml.Unmarshal`) is
likewise external and appears as an oracle argument of
`NewPairsFromContents`.
-/

set_option autoImplicit false

/-- Character-list view of a Lean string literal, used to write concrete inputs. -/
def str (s : String) : List Char := s.data

/-- The whitespace set trimmed by Go's `strings.TrimSpace` (`unicode.IsSpace`):
space, tab, newline, vertical tab, form feed, carriage return, NEL (U+0085)
and NBSP (U+00A0). -/
def isSpace (c : Char) : Bool :=
  c == ' ' || c == '\t' || c == '\n' || c == Char.ofNat 11 || c == Char.ofNat 12 ||
    c == '\r' || c == Char.ofNat 133 || c == Char.ofNat 160

/-- Leading-whitespace removal (left half of `strings.TrimSpace`). -/
def trimLeft : List Char → List Char
  | [] => []
  | c :: cs => if isSpace c then trimLeft cs else c :: cs

/-- Trailing-whitespace removal (right half of `strings.TrimSpace`). -/
def trimRight : List Char → List Char
  | [] => []
  | c :: cs =>
    match trimRight cs with
    | [] => if isSpace c then [] else [c]
    | r => c :: r

/-- Go's `strings.TrimSpace`: drop leading and trailing whitespace. -/
def trimSpace (s : List Char) : List Char := trimRight (trimLeft s)

/-- Character-level model of Go's `strings.ToLower`. -/
def toLower (s : List Char) : List Char := s.map Char.toLower

/-- Go's `strings.SplitN(s, sep, 2)` for a one-character separator: the part
before the first occurrence of `sep`, and — when `sep` occurs — the rest.
`SplitN` always returns at least one part, hence the shape
`List Char × Option (List Char)`. -/
def splitN2 (sep : Char) : List Char → List Char × Option (List Char)
  | [] => ([], none)
  | c :: cs =>
    if c == sep then ([], some cs)
    else
      let (f, r) := splitN2 sep cs
      (c :: f, r)

/-- Lookup in a Go map modelled as an association list with unique keys. -/
def lookupAssoc (m : List (List Char × List Char)) (k : List Char) : Option (List Char) :=
  match m with
  | [] => none
  | (k', v) :: rest => if k = k' then some v else lookupAssoc rest k

/-- `emailConfig` (pairs.go lines 38–41): the `email:` section of the config. -/
structure emailConfig where
  Prefix : List Char
  Domain : List Char
deriving DecidableEq

/-- `pairsFile` (pairs.go lines 31–36): the parsed YAML authors file. The
`Pairs` field carries the `authors:` mapping. -/
structure pairsFile where
  Pairs : List (List Char × List Char)
  Email : emailConfig
  EmailAddresses : List (List Char × List Char)
  EmailTemplate : List Char
deriving DecidableEq

/-- `Pairs` (pairs.go lines 18–21): the parsed file plus the optional external
email-lookup command. -/
structure Pairs where
  file : pairsFile
  emailLookup : List Char
deriving DecidableEq

/-- `Pair` (pairs.go lines 24–29): the resolved identity record. -/
structure Pair where
  Name : List Char
  Email : List Char
  Initials : List Char
  Username : List Char
deriving DecidableEq

/-- The failure modes of a single lookup.  `unknownInitials` models the
`fmt.Errorf("unknown initials %s", initials)` of `ByInitials`;
`commandFailed` the error returned from `cmd.Run()`; `templateFailed` the
error from template `Parse`/`Execute`; `indexOutOfRange` the runtime panic
that Go would raise at `...[0]` on an empty string (pairs.go line 121). -/
inductive LookupError where
  | unknownInitials (initials : List Char)
  | commandFailed (cause : List Char)
  | templateFailed (cause : List Char)
  | indexOutOfRange
deriving DecidableEq

/-- The external collaborators of `buildEmail`, as deterministic functions:
`runLookup initials name username` is the external command's outcome
(`Except.error` = failed to execute or exited non-zero, `Except.ok` = its
captured standard output), and `renderTemplate tmpl initials name username`
is the template engine's parse-and-render outcome on the context
`Pair{Initials: initials, Name: name, Username: username}`. -/
structure Oracles where
  runLookup : List Char → List Char → List Char → Except (List Char) (List Char)
  renderTemplate : List Char → List Char → List Char → List Char → Except (List Char) (List Char)

/-- The name-derived fallback (pairs.go lines 116–127): split the name on the
first space; with two tokens the email is the first byte of the lowercased
trimmed first token, a dot, the lowercased trimmed second token, `@`, the
domain; with one token it is the lowercased trimmed token, `@`, the domain.
Indexing `[0]` into an empty string is the Go panic, modelled as
`indexOutOfRange`. -/
def nameBranch (name Domain : List Char) : Except LookupError (List Char) :=
  match splitN2 ' ' name with
  | (tok, none) => Except.ok (toLower (trimSpace tok) ++ '@' :: Domain)
  | (first, some second) =>
    match toLower (trimSpace first) with
    | [] => Except.error LookupError.indexOutOfRange
    | c :: _ => Except.ok (c :: '.' :: (toLower (trimSpace second) ++ '@' :: Domain))

/-- The part of `buildEmail` after the external-command block (pairs.go lines
99–129): override map, then template, then username+domain, then the
name-derived fallback. -/
def buildEmailChain (ox : Oracles) (a : Pairs) (initials name username : List Char) :
    Except LookupError (List Char) :=
  match lookupAssoc a.file.EmailAddresses initials with
  | some e => Except.ok e
  | none =>
    if a.file.EmailTemplate ≠ [] then
      match ox.renderTemplate a.file.EmailTemplate initials name username with
      | Except.error e => Except.error (LookupError.templateFailed e)
      | Except.ok out => Except.ok out
    else if username ≠ [] then
      Except.ok (trimSpace username ++ '@' :: a.file.Email.Domain)
    else
      nameBranch name a.file.Email.Domain

/-- `buildEmail` (pairs.go lines 82–130): if an external lookup command is
configured, run it on `(initials, name, username)`; a run error aborts the
lookup, a non-empty trimmed output is the email, an empty trimmed output
falls through to the rest of the chain. -/
def buildEmail (ox : Oracles) (a : Pairs) (initials name username : List Char) :
    Except LookupError (List Char) :=
  if a.emailLookup ≠ [] then
    match ox.runLookup initials name username with
    | Except.error e => Except.error (LookupError.commandFailed e)
    | Except.ok out =>
      if trimSpace out ≠ [] then Except.ok (trimSpace out)
      else buildEmailChain ox a initials name username
  else buildEmailChain ox a initials name username

/-- The `name` extracted from a raw authors value (pairs.go lines 146–147):
trimmed part before the first `;`. -/
def parsedName (pairString : List Char) : List Char :=
  trimSpace (splitN2 ';' pairString).1

/-- The `username` extracted from a raw authors value (pairs.go lines
148–151): trimmed part after the first `;` when present, else empty. -/
def parsedUsername (pairString : List Char) : List Char :=
  match (splitN2 ';' pairString).2 with
  | some p2 => trimSpace p2
  | none => []

/-- `ByInitials` (pairs.go lines 140–164): look the initials up in the authors
map, split the record into name and username, build the email, and return the
assembled `Pair`. -/
def ByInitials (ox : Oracles) (a : Pairs) (initials : List Char) :
    Except LookupError Pair :=
  match lookupAssoc a.file.Pairs initials with
  | none => Except.error (LookupError.unknownInitials initials)
  | some pairString =>
    match buildEmail ox a initials (parsedName pairString) (parsedUsername pairString) with
    | Except.error e => Except.error e
    | Except.ok email =>
      Except.ok { Name := parsedName pairString, Email := email,
                  Initials := initials, Username := parsedUsername pairString }

/-- Whether the lookup outcome is the modelled Go index panic. -/
def lookupPanics (r : Except LookupError Pair) : Bool :=
  match r with
  | Except.error LookupError.indexOutOfRange => true
  | _ => false

/-! ### Spec-side definitions

These follow the words of the specification or of a claim (not the source)
and exist to be compared with the source-derived definitions above. -/

/-- Modelled from the spec's words (§4 Strategy E, claim C2): with two tokens
the email is the first character of the lowercased first token, a dot, the
lowercased trimmed second token, `@`, the domain; with one token the
lowercased trimmed token, `@`, the domain. -/
def specNameEmail (name Domain : List Char) : List Char :=
  match splitN2 ' ' name with
  | (tok, none) => toLower (trimSpace tok) ++ '@' :: Domain
  | (first, some second) =>
    (toLower first).take 1 ++ '.' :: (toLower (trimSpace second) ++ '@' :: Domain)

/-- First non-empty entry of a list of candidate strings, empty if none. -/
def firstNonEmpty : List (List Char) → List Char
  | [] => []
  | x :: xs => if x = [] then firstNonEmpty xs else x

/-- Modelled from the claim's words (C1): the yields of the five strategies
A (external command), B (override map), C (template), D (username+domain),
E (name-derived), in priority order, an unconfigured or failed strategy
yielding the empty string. -/
def strategyYields (ox : Oracles) (a : Pairs) (initials name username : List Char) :
    List (List Char) :=
  [ (if a.emailLookup ≠ [] then
       match ox.runLookup initials name username with
       | Except.ok out => trimSpace out
       | Except.error _ => []
     else []),
    (lookupAssoc a.file.EmailAddresses initials).getD [],
    (if a.file.EmailTemplate ≠ [] then
       match ox.renderTemplate a.file.EmailTemplate initials name username with
       | Except.ok out => out
       | Except.error _ => []
     else []),
    (if username ≠ [] then trimSpace username ++ '@' :: a.file.Email.Domain else []),
    (match nameBranch name a.file.Email.Domain with
     | Except.ok e => e
     | Except.error _ => []) ]

/-- Modelled from the claim's words (C1): the result of the first strategy, in
priority order, that yields a non-empty result. -/
def firstNonEmptyEmail (ox : Oracles) (a : Pairs) (initials name username : List Char) :
    List Char :=
  firstNonEmpty (strategyYields ox a initials name username)

/-- Claim C1 as stated: the email of every successfully returned `Pair` is the
result of the first strategy, in the fixed priority order, that yields a
non-empty result. -/
def claimC1Prop : Prop :=
  ∀ (ox : Oracles) (a : Pairs) (initials ps : List Char),
    lookupAssoc a.file.Pairs initials = some ps →
    ∀ p : Pair, ByInitials ox a initials = Except.ok p →
      p.Email = firstNonEmptyEmail ox a initials (parsedName ps) (parsedUsername ps)

/-- The email selected by the first applicable strategy: A applies only when a
command is configured and its trimmed output is non-empty; B applies whenever
the initials are in the override map (its value used even when empty); C
applies whenever a template is configured (its rendering used even when
empty); D applies when the username is non-empty; E applies otherwise.  This
is the amended reading of claim C1. -/
def firstApplicableEmail (ox : Oracles) (a : Pairs) (initials name username : List Char) :
    List Char :=
  let cmdYield : List Char :=
    if a.emailLookup ≠ [] then
      match ox.runLookup initials name username with
      | Except.ok out => trimSpace out
      | Except.error _ => []
    else []
  if cmdYield ≠ [] then cmdYield
  else
    match lookupAssoc a.file.EmailAddresses initials with
    | some e => e
    | none =>
      if a.file.EmailTemplate ≠ [] then
        match ox.renderTemplate a.file.EmailTemplate initials name username with
        | Except.ok out => out
        | Except.error _ => []
      else if username ≠ [] then trimSpace username ++ '@' :: a.file.Email.Domain
      else
        match nameBranch name a.file.Email.Domain with
        | Except.ok e => e
        | Except.error _ => []

/-- The same `Pairs` value with the email prefix replaced. -/
def withPfx (a : Pairs) (p : List Char) : Pairs :=
  { a with file := { a.file with Email := { a.file.Email with Prefix := p } } }

/-- The same `Pairs` value with the email domain replaced. -/
def withDomain (a : Pairs) (d : List Char) : Pairs :=
  { a with file := { a.file with Email := { a.file.Email with Domain := d } } }

/-- Claim C8's assertion about the prefix field: some lookup outcome depends
on the configured email prefix. -/
def pfxInfluencesLookup : Prop :=
  ∃ (ox : Oracles) (a : Pairs) (p initials : List Char),
    ByInitials ox (withPfx a p) initials ≠ ByInitials ox a initials

/-! ### Loading (`NewPairsFromFile`) and the legacy `pairs:` key rewrite -/

/-- The token matched by the regex `(?m)^pairs:` (pairs.go line 43). -/
def pairsLit : List Char := ['p', 'a', 'i', 'r', 's', ':']

/-- The replacement written for a matched key (pairs.go line 62). -/
def authorsLit : List Char := ['a', 'u', 't', 'h', 'o', 'r', 's', ':']

/-- Whether `p` is a prefix of `s`. -/
def startsWith : List Char → List Char → Bool
  | [], _ => true
  | _ :: _, [] => false
  | x :: xs, y :: ys => x == y && startsWith xs ys

/-- Scanner for `pairsKey.ReplaceAll(contents, []byte("authors:"))` (pairs.go
lines 43 and 62).  The boolean is whether the current position is a line
start (start of text or just after a newline, the positions where `(?m)^`
matches); on a match the replacement is emitted and the five remaining
matched characters are skipped via the `Nat` counter. -/
def replAux : Nat → Bool → List Char → List Char
  | _, _, [] => []
  | k + 1, _, _ :: cs => replAux k false cs
  | 0, b, c :: cs =>
    if b && startsWith pairsLit (c :: cs) then
      authorsLit ++ replAux 5 false cs
    else
      c :: replAux 0 (c == '\n') cs

/-- The whole-document rewrite of line-anchored `pairs:` keys to `authors:`
performed before structural parsing (pairs.go line 62). -/
def replacePairsKey (s : List Char) : List Char := replAux 0 true s

/-- Whether the text contains a line-anchored occurrence of `pairs:`; the
boolean says whether the first position counts as a line start. -/
def containsAnchored : Bool → List Char → Bool
  | _, [] => false
  | b, c :: cs => (b && startsWith pairsLit (c :: cs)) || containsAnchored (c == '\n') cs

/-- The line-start flag after scanning the given characters. -/
def lineFlagAfter : Bool → List Char → Bool
  | b, [] => b
  | _, c :: cs => lineFlagAfter (c == '\n') cs

/-- `NewPairsFromFile` (pairs.go lines 47–73) after the file contents have
been read: rewrite the legacy key, hand the text to the external YAML parser
(the oracle `yamlUnmarshal`), and wrap the result with the lookup command. -/
def NewPairsFromContents
    (yamlUnmarshal : List Char → Except (List Char) pairsFile)
    (contents emailLookup : List Char) : Except (List Char) Pairs :=
  match yamlUnmarshal (replacePairsKey contents) with
  | Except.error e => Except.error e
  | Except.ok af => Except.ok { file := af, emailLookup := emailLookup }

/-! ### Concrete configurations and oracles used by witnesses -/

/-- Oracle bundle for configurations that use neither the command nor the
template. -/
def noOracles : Oracles :=
  { runLookup := fun _ _ _ => Except.ok [],
    renderTemplate := fun _ _ _ _ => Except.ok [] }

/-- Scenario 1 configuration: `AB: "Alice Brown"`, domain `example.com`. -/
def cfgAB : Pairs :=
  { file := { Pairs := [(str "AB", str "Alice Brown")],
              Email := { Prefix := [], Domain := str "example.com" },
              EmailAddresses := [],
              EmailTemplate := [] },
    emailLookup := [] }

/-- Scenario 3 configuration: `EF: "Eve Foo; efoo"`, domain `example.com`. -/
def cfgEF : Pairs :=
  { file := { Pairs := [(str "EF", str "Eve Foo; efoo")],
              Email := { Prefix := [], Domain := str "example.com" },
              EmailAddresses := [],
              EmailTemplate := [] },
    emailLookup := [] }

/-- Configuration with an empty-string override entry for `AB`, used to refute
claim C1 as stated. -/
def cfgC1 : Pairs :=
  { file := { Pairs := [(str "AB", str "Alice Brown; ab")],
              Email := { Prefix := [], Domain := str "example.com" },
              EmailAddresses := [(str "AB", [])],
              EmailTemplate := [] },
    emailLookup := [] }

/-- Configuration with a template configured, used with a failing template
oracle. -/
def cfgTmpl : Pairs :=
  { file := { Pairs := [(str "AB", str "Alice Brown")],
              Email := { Prefix := [], Domain := str "example.com" },
              EmailAddresses := [],
              EmailTemplate := str "T" },
    emailLookup := [] }

/-- Oracle bundle whose template engine fails. -/
def oxTmplFail : Oracles :=
  { runLookup := fun _ _ _ => Except.ok [],
    renderTemplate := fun _ _ _ _ => Except.error (str "bad template") }

/-- Configuration with an external lookup command configured. -/
def cfgCmd : Pairs :=
  { file := { Pairs := [(str "AB", str "Alice Brown")],
              Email := { Prefix := [], Domain := str "example.com" },
              EmailAddresses := [],
              EmailTemplate := [] },
    emailLookup := str "lookup-email" }

/-- Oracle bundle whose external command writes `  x@y  ` to standard output. -/
def oxCmdOk : Oracles :=
  { runLookup := fun _ _ _ => Except.ok (str "  x@y  "),
    renderTemplate := fun _ _ _ _ => Except.ok [] }

/-! ### Helper lemmas on the string primitives -/

lemma trimLeft_head : ∀ (s : List Char) (x : Char) (xs : List Char),
    trimLeft s = x :: xs → isSpace x = false := by
  intro s
  induction s with
  | nil => intro x xs h; simp [trimLeft] at h
  | cons c cs ih =>
    intro x xs h
    cases hc : isSpace c with
    | true => simp [trimLeft, hc] at h; exact ih x xs h
    | false => simp [trimLeft, hc] at h; rw [← h.1]; exact hc

lemma trimRight_cons_of_not_space (c : Char) (cs : List Char) (h : isSpace c = false) :
    ∃ ds, trimRight (c :: cs) = c :: ds := by
  cases hr : trimRight cs with
  | nil => exact ⟨[], by simp [trimRight, hr, h]⟩
  | cons d ds => exact ⟨d :: ds, by simp [trimRight, hr]⟩

lemma trimRight_cons_head (c : Char) (cs : List Char) :
    trimRight (c :: cs) = [] ∨ ∃ ds, trimRight (c :: cs) = c :: ds := by
  cases hr : trimRight cs with
  | nil =>
    cases hc : isSpace c with
    | true => left; simp [trimRight, hr, hc]
    | false => right; exact ⟨[], by simp [trimRight, hr, hc]⟩
  | cons d ds => right; exact ⟨d :: ds, by simp [trimRight, hr]⟩

lemma trimSpace_head_not_space (s : List Char) (x : Char) (xs : List Char)
    (h : trimSpace s = x :: xs) : isSpace x = false := by
  unfold trimSpace at h
  cases hl : trimLeft s with
  | nil => rw [hl] at h; simp [trimRight] at h
  | cons c cs =>
    rw [hl] at h
    have hc : isSpace c = false := trimLeft_head s c cs hl
    rcases trimRight_cons_head c cs with h0 | ⟨ds, hds⟩
    · rw [h0] at h; cases h
    · rw [hds] at h
      cases h
      exact hc

lemma trimSpace_cons_of_not_space (c : Char) (cs : List Char) (h : isSpace c = false) :
    ∃ ds, trimSpace (c :: cs) = c :: ds := by
  have hl : trimLeft (c :: cs) = c :: cs := by simp [trimLeft, h]
  unfold trimSpace
  rw [hl]
  exact trimRight_cons_of_not_space c cs h

lemma splitN2_cons_ne (sep c : Char) (cs : List Char) (h : (c == sep) = false) :
    splitN2 sep (c :: cs) = (c :: (splitN2 sep cs).1, (splitN2 sep cs).2) := by
  cases hsp : splitN2 sep cs with
  | mk f r => simp [splitN2, h, hsp]

/-- On a whitespace-trimmed name the name-derived fallback never hits the
index panic and agrees with the spec's formula. -/
lemma nameBranch_trimmed (p1 d : List Char) :
    nameBranch (trimSpace p1) d = Except.ok (specNameEmail (trimSpace p1) d) := by
  cases h : trimSpace p1 with
  | nil => rfl
  | cons c cs =>
    have hc : isSpace c = false := trimSpace_head_not_space p1 c cs h
    have hcsep : (c == ' ') = false := by
      cases hq : (c == ' ') with
      | false => rfl
      | true =>
        have hce : c = ' ' := beq_iff_eq.1 hq
        rw [hce] at hc
        simp [isSpace] at hc
    unfold nameBranch specNameEmail
    rw [splitN2_cons_ne ' ' c cs hcsep]
    cases hr : (splitN2 ' ' cs).2 with
    | none => simp
    | some second =>
      obtain ⟨ds, hds⟩ := trimSpace_cons_of_not_space c (splitN2 ' ' cs).1 hc
      simp only [hds, toLower, List.map]
      simp [toLower]

/-! ### Case lemmas on `buildEmail`, `buildEmailChain` and `ByInitials` -/

lemma buildEmail_no_cmd (ox : Oracles) (a : Pairs) (initials name username : List Char)
    (h : a.emailLookup = []) :
    buildEmail ox a initials name username = buildEmailChain ox a initials name username := by
  simp [buildEmail, h]

lemma buildEmail_cmd_err (ox : Oracles) (a : Pairs) (initials name username e : List Char)
    (h : a.emailLookup ≠ []) (hr : ox.runLookup initials name username = Except.error e) :
    buildEmail ox a initials name username = Except.error (LookupError.commandFailed e) := by
  simp [buildEmail, h, hr]

lemma buildEmail_cmd_ok_nonempty (ox : Oracles) (a : Pairs)
    (initials name username out : List Char)
    (h : a.emailLookup ≠ []) (hr : ox.runLookup initials name username = Except.ok out)
    (hne : trimSpace out ≠ []) :
    buildEmail ox a initials name username = Except.ok (trimSpace out) := by
  simp [buildEmail, h, hr, hne]

lemma buildEmail_cmd_ok_empty (ox : Oracles) (a : Pairs)
    (initials name username out : List Char)
    (h : a.emailLookup ≠ []) (hr : ox.runLookup initials name username = Except.ok out)
    (he : trimSpace out = []) :
    buildEmail ox a initials name username = buildEmailChain ox a initials name username := by
  simp [buildEmail, h, hr, he]

lemma chain_override (ox : Oracles) (a : Pairs) (initials name username e : List Char)
    (h : lookupAssoc a.file.EmailAddresses initials = some e) :
    buildEmailChain ox a initials name username = Except.ok e := by
  simp [buildEmailChain, h]

lemma chain_template (ox : Oracles) (a : Pairs) (initials name username : List Char)
    (h1 : lookupAssoc a.file.EmailAddresses initials = none)
    (h2 : a.file.EmailTemplate ≠ []) :
    buildEmailChain ox a initials name username =
      match ox.renderTemplate a.file.EmailTemplate initials name username with
      | Except.error e => Except.error (LookupError.templateFailed e)
      | Except.ok out => Except.ok out := by
  simp [buildEmailChain, h1, h2]

lemma chain_username (ox : Oracles) (a : Pairs) (initials name username : List Char)
    (h1 : lookupAssoc a.file.EmailAddresses initials = none)
    (h2 : a.file.EmailTemplate = [])
    (h3 : username ≠ []) :
    buildEmailChain ox a initials name username =
      Except.ok (trimSpace username ++ '@' :: a.file.Email.Domain) := by
  simp [buildEmailChain, h1, h2, h3]

lemma chain_nameBranch (ox : Oracles) (a : Pairs) (initials name username : List Char)
    (h1 : lookupAssoc a.file.EmailAddresses initials = none)
    (h2 : a.file.EmailTemplate = [])
    (h3 : username = []) :
    buildEmailChain ox a initials name username = nameBranch name a.file.Email.Domain := by
  simp [buildEmailChain, h1, h2, h3]

lemma byInitials_absent (ox : Oracles) (a : Pairs) (initials : List Char)
    (h : lookupAssoc a.file.Pairs initials = none) :
    ByInitials ox a initials = Except.error (LookupError.unknownInitials initials) := by
  simp [ByInitials, h]

lemma byInitials_present (ox : Oracles) (a : Pairs) (initials ps : List Char)
    (h : lookupAssoc a.file.Pairs initials = some ps) :
    ByInitials ox a initials =
      match buildEmail ox a initials (parsedName ps) (parsedUsername ps) with
      | Except.error e => Except.error e
      | Except.ok email =>
        Except.ok { Name := parsedName ps, Email := email,
                    Initials := initials, Username := parsedUsername ps } := by
  simp [ByInitials, h]

/-- `ByInitials` never projects the configured email prefix. -/
lemma byInitials_pfx_irrel (ox : Oracles) (a : Pairs) (p initials : List Char) :
    ByInitials ox (withPfx a p) initials = ByInitials ox a initials := by
  cases a with
  | mk file el =>
    cases file with
    | mk prs em addrs tmpl =>
      cases em with
      | mk pf dom => rfl

/-- Decidable equality for `Except`, used to evaluate concrete lookup results. -/
instance {ε α : Type} [DecidableEq ε] [DecidableEq α] : DecidableEq (Except ε α) := fun x y =>
  match x, y with
  | Except.ok a, Except.ok b =>
    if h : a = b then isTrue (by rw [h])
    else isFalse (fun e => h (Except.ok.inj e))
  | Except.error a, Except.error b =>
    if h : a = b then isTrue (by rw [h])
    else isFalse (fun e => h (Except.error.inj e))
  | Except.ok _, Except.error _ => isFalse (fun e => Except.noConfusion e)
  | Except.error _, Except.ok _ => isFalse (fun e => Except.noConfusion e)

/-- The error constructors `buildEmail` itself can produce on a parsed record
(everything except the unknown-initials error and the index panic). -/
def benignError : LookupError → Bool
  | LookupError.commandFailed _ => true
  | LookupError.templateFailed _ => true
  | _ => false

/-- On a name produced by `parsedName` the chain either succeeds or fails with
a command/template error — never with the index panic or an
unknown-initials error. -/
lemma chain_parsed_shape (ox : Oracles) (a : Pairs) (initials ps username : List Char) :
    (∃ e, buildEmailChain ox a initials (parsedName ps) username = Except.ok e) ∨
    (∃ er, buildEmailChain ox a initials (parsedName ps) username = Except.error er ∧
           benignError er = true) := by
  rcases h1 : lookupAssoc a.file.EmailAddresses initials with _ | e
  · by_cases h2 : a.file.EmailTemplate = []
    · by_cases h3 : username = []
      · left
        rw [chain_nameBranch ox a initials _ username h1 h2 h3]
        refine ⟨specNameEmail (parsedName ps) a.file.Email.Domain, ?_⟩
        unfold parsedName
        exact nameBranch_trimmed (splitN2 ';' ps).1 a.file.Email.Domain
      · left; exact ⟨_, chain_username ox a initials _ username h1 h2 h3⟩
    · rw [chain_template ox a initials _ username h1 h2]
      cases hr : ox.renderTemplate a.file.EmailTemplate initials (parsedName ps) username with
      | error e2 => right; exact ⟨LookupError.templateFailed e2, rfl, rfl⟩
      | ok out => left; exact ⟨out, rfl⟩
  · left; exact ⟨e, chain_override ox a initials _ username e h1⟩

/-- On a parsed record `buildEmail` either succeeds or fails with a
command/template error. -/
lemma buildEmail_parsed_shape (ox : Oracles) (a : Pairs) (initials ps : List Char) :
    (∃ e, buildEmail ox a initials (parsedName ps) (parsedUsername ps) = Except.ok e) ∨
    (∃ er, buildEmail ox a initials (parsedName ps) (parsedUsername ps) = Except.error er ∧
           benignError er = true) := by
  by_cases hc : a.emailLookup = []
  · rw [buildEmail_no_cmd ox a initials _ _ hc]
    exact chain_parsed_shape ox a initials ps (parsedUsername ps)
  · cases hr : ox.runLookup initials (parsedName ps) (parsedUsername ps) with
    | error e =>
      right
      exact ⟨LookupError.commandFailed e,
        buildEmail_cmd_err ox a initials _ _ e hc hr, rfl⟩
    | ok out =>
      by_cases he : trimSpace out = []
      · rw [buildEmail_cmd_ok_empty ox a initials _ _ out hc hr he]
        exact chain_parsed_shape ox a initials ps (parsedUsername ps)
      · left
        exact ⟨trimSpace out, buildEmail_cmd_ok_nonempty ox a initials _ _ out hc hr he⟩

/-- C3: for every loaded configuration and initials, the lookup fails with
`UnknownInitials` carrying exactly the offending initials if and only if the
initials are absent from the authors map; for present initials it never
fails with `UnknownInitials`. -/
theorem claim_C3_thm (ox : Oracles) (a : Pairs) (initials : List Char) :
    (ByInitials ox a initials = Except.error (LookupError.unknownInitials initials)
      ↔ lookupAssoc a.file.Pairs initials = none)
    ∧ ∀ i, ByInitials ox a initials = Except.error (LookupError.unknownInitials i) →
        i = initials := by
  rcases h : lookupAssoc a.file.Pairs initials with _ | ps
  · rw [byInitials_absent ox a initials h]
    refine ⟨⟨fun _ => rfl, fun _ => rfl⟩, fun i hi => ?_⟩
    have h2 := (Except.error.inj hi)
    exact (LookupError.unknownInitials.inj h2).symm
  · rw [byInitials_present ox a initials ps h]
    rcases buildEmail_parsed_shape ox a initials ps with ⟨e, he⟩ | ⟨er, her, hb⟩
    · rw [he]
      refine ⟨⟨fun hx => ?_, fun hx => ?_⟩, fun i hi => ?_⟩
      · cases hx
      · cases hx
      · cases hi
    · rw [her]
      refine ⟨⟨fun hx => ?_, fun hx => ?_⟩, fun i hi => ?_⟩
      · have h2 := Except.error.inj hx
        rw [h2] at hb
        simp [benignError] at hb
      · cases hx
      · have h2 := Except.error.inj hi
        rw [h2] at hb
        simp [benignError] at hb

/-- C3 witness (Scenario 6): initials `ZZ` absent from the authors map fail
with `UnknownInitials` carrying `ZZ`. -/
theorem claim_C3_witness :
    ByInitials noOracles cfgAB (str "ZZ") =
      Except.error (LookupError.unknownInitials (str "ZZ")) :=
  (claim_C3_thm noOracles cfgAB (str "ZZ")).1.2 rfl

/-- C10: the byte index `[0]` in the two-token branch of the name fallback is
always in bounds on inputs reachable from `ByInitials` — the name is trimmed
before splitting, so the first token is non-empty — and the lookup therefore
never hits the modelled index panic. -/
theorem claim_C10_thm (ox : Oracles) (a : Pairs) (initials : List Char) :
    lookupPanics (ByInitials ox a initials) = false := by
  rcases h : lookupAssoc a.file.Pairs initials with _ | ps
  · rw [byInitials_absent ox a initials h]; rfl
  · rw [byInitials_present ox a initials ps h]
    rcases buildEmail_parsed_shape ox a initials ps with ⟨e, he⟩ | ⟨er, her, hb⟩
    · rw [he]; rfl
    · rw [her]
      cases er with
      | unknownInitials i => rfl
      | commandFailed c => rfl
      | templateFailed c => rfl
      | indexOutOfRange => simp [benignError] at hb

/-- Common step for C2/C5/C7: a lookup that produces no command result (no
command configured, or a successful command with empty trimmed output)
continues with the rest of the chain. -/
lemma buildEmail_no_cmd_result (ox : Oracles) (a : Pairs) (initials name username : List Char)
    (hcmd : a.emailLookup = [] ∨
      ∃ out, ox.runLookup initials name username = Except.ok out ∧ trimSpace out = []) :
    buildEmail ox a initials name username = buildEmailChain ox a initials name username := by
  rcases hcmd with hc | ⟨out, ho, he⟩
  · exact buildEmail_no_cmd ox a initials name username hc
  · by_cases hc : a.emailLookup = []
    · exact buildEmail_no_cmd ox a initials name username hc
    · exact buildEmail_cmd_ok_empty ox a initials name username out hc ho he

/-- C2: with an empty parsed username and a lookup that reaches Strategy E
(no command result, no override entry, no template), the email is the spec's
name-derived formula over the trimmed name: first character of the lowercased
first token, dot, lowercased trimmed second token, at-sign, domain when the
split yields two tokens; lowercased trimmed token, at-sign, domain when it
yields one. -/
theorem claim_C2_thm (ox : Oracles) (a : Pairs) (initials ps : List Char)
    (h : lookupAssoc a.file.Pairs initials = some ps)
    (hcmd : a.emailLookup = [] ∨
      ∃ out, ox.runLookup initials (parsedName ps) (parsedUsername ps) = Except.ok out ∧
             trimSpace out = [])
    (hover : lookupAssoc a.file.EmailAddresses initials = none)
    (htmpl : a.file.EmailTemplate = [])
    (huser : parsedUsername ps = []) :
    ByInitials ox a initials =
      Except.ok { Name := parsedName ps,
                  Email := specNameEmail (parsedName ps) a.file.Email.Domain,
                  Initials := initials, Username := parsedUsername ps } := by
  have hch := buildEmail_no_cmd_result ox a initials (parsedName ps) (parsedUsername ps) hcmd
  have hnb : nameBranch (parsedName ps) a.file.Email.Domain =
      Except.ok (specNameEmail (parsedName ps) a.file.Email.Domain) := by
    unfold parsedName
    exact nameBranch_trimmed (splitN2 ';' ps).1 a.file.Email.Domain
  rw [byInitials_present ox a initials ps h, hch,
      chain_nameBranch ox a initials _ _ hover htmpl huser, hnb]

/-- C2 witness (Scenario 1): `AB: "Alice Brown"` with domain `example.com`
resolves to `a.brown@example.com`. -/
theorem claim_C2_witness :
    ByInitials noOracles cfgAB (str "AB") =
      Except.ok { Name := str "Alice Brown", Email := str "a.brown@example.com",
                  Initials := str "AB", Username := [] } := by
  have h := claim_C2_thm noOracles cfgAB (str "AB") (str "Alice Brown")
    rfl (Or.inl rfl) rfl rfl rfl
  rw [h]
  rfl

/-- C7: with no command result, no override entry and no template, a non-empty
parsed username makes the email the trimmed username followed by `@` and the
configured domain — the username strategy wins over the name fallback. -/
theorem claim_C7_thm (ox : Oracles) (a : Pairs) (initials ps : List Char)
    (h : lookupAssoc a.file.Pairs initials = some ps)
    (hcmd : a.emailLookup = [] ∨
      ∃ out, ox.runLookup initials (parsedName ps) (parsedUsername ps) = Except.ok out ∧
             trimSpace out = [])
    (hover : lookupAssoc a.file.EmailAddresses initials = none)
    (htmpl : a.file.EmailTemplate = [])
    (huser : parsedUsername ps ≠ []) :
    ByInitials ox a initials =
      Except.ok { Name := parsedName ps,
                  Email := trimSpace (parsedUsername ps) ++ '@' :: a.file.Email.Domain,
                  Initials := initials, Username := parsedUsername ps } := by
  have hch := buildEmail_no_cmd_result ox a initials (parsedName ps) (parsedUsername ps) hcmd
  rw [byInitials_present ox a initials ps h, hch,
      chain_username ox a initials _ _ hover htmpl huser]

/-- C7 witness (Scenario 3): `EF: "Eve Foo; efoo"` with domain `example.com`
resolves to `efoo@example.com`. -/
theorem claim_C7_witness :
    ByInitials noOracles cfgEF (str "EF") =
      Except.ok { Name := str "Eve Foo", Email := str "efoo@example.com",
                  Initials := str "EF", Username := str "efoo" } := by
  have h := claim_C7_thm noOracles cfgEF (str "EF") (str "Eve Foo; efoo")
    rfl (Or.inl rfl) rfl rfl (by decide)
  rw [h]
  rfl

/-- C4: when a lookup command is configured, the command's outcome on the
three positional arguments `(initials, name, username)` drives Strategy A —
an execution failure aborts the lookup with the command error, a non-empty
trimmed output is the email and resolution stops, an empty trimmed output
falls through to the rest of the chain (the override map onwards) — and the
result depends on the oracles only through those invocations. -/
theorem claim_C4_thm (ox : Oracles) (a : Pairs) (initials name username : List Char)
    (h : a.emailLookup ≠ []) :
    (∀ e, ox.runLookup initials name username = Except.error e →
        buildEmail ox a initials name username = Except.error (LookupError.commandFailed e))
    ∧ (∀ out, ox.runLookup initials name username = Except.ok out → trimSpace out ≠ [] →
        buildEmail ox a initials name username = Except.ok (trimSpace out))
    ∧ (∀ out, ox.runLookup initials name username = Except.ok out → trimSpace out = [] →
        buildEmail ox a initials name username = buildEmailChain ox a initials name username)
    ∧ (∀ ox2 : Oracles,
        ox2.runLookup initials name username = ox.runLookup initials name username →
        (∀ t i2 n2 u2, ox2.renderTemplate t i2 n2 u2 = ox.renderTemplate t i2 n2 u2) →
        buildEmail ox2 a initials name username = buildEmail ox a initials name username) := by
  refine ⟨fun e he => buildEmail_cmd_err ox a initials name username e h he,
          fun out ho hne => buildEmail_cmd_ok_nonempty ox a initials name username out h ho hne,
          fun out ho he => buildEmail_cmd_ok_empty ox a initials name username out h ho he,
          fun ox2 hrun hrend => ?_⟩
  unfold buildEmail buildEmailChain
  rw [hrun, hrend]

/-- C4 witness: a configured command whose output is `  x@y  ` yields the
trimmed email `x@y`. -/
theorem claim_C4_witness :
    buildEmail oxCmdOk cfgCmd (str "AB") (str "Alice Brown") [] =
      Except.ok (str "x@y") := by
  have h := (claim_C4_thm oxCmdOk cfgCmd (str "AB") (str "Alice Brown") []
    (by decide)).2.1 (str "  x@y  ") rfl (by decide)
  rw [h]
  rfl

/-- C5: a template parse-or-render failure in the reached template strategy
aborts the lookup with a `ResolutionFailure` carrying the template error, and
every `buildEmail` failure propagates unchanged out of `ByInitials` — no
partial or degraded `Pair` is returned. -/
theorem claim_C5_thm (ox : Oracles) (a : Pairs) (initials name username : List Char) :
    ((a.emailLookup = [] ∨
        ∃ out, ox.runLookup initials name username = Except.ok out ∧ trimSpace out = []) →
      lookupAssoc a.file.EmailAddresses initials = none →
      a.file.EmailTemplate ≠ [] →
      ∀ e, ox.renderTemplate a.file.EmailTemplate initials name username = Except.error e →
        buildEmail ox a initials name username = Except.error (LookupError.templateFailed e))
    ∧ ∀ ps, lookupAssoc a.file.Pairs initials = some ps →
        ∀ e, buildEmail ox a initials (parsedName ps) (parsedUsername ps) = Except.error e →
          ByInitials ox a initials = Except.error e := by
  constructor
  · intro hcmd hover htmpl e he
    rw [buildEmail_no_cmd_result ox a initials name username hcmd,
        chain_template ox a initials name username hover htmpl, he]
  · intro ps hps e he
    rw [byInitials_present ox a initials ps hps, he]

/-- C5 witness: a failing template aborts the whole lookup with the template
error and no `Pair`. -/
theorem claim_C5_witness :
    ByInitials oxTmplFail cfgTmpl (str "AB") =
      Except.error (LookupError.templateFailed (str "bad template")) := by
  have h1 := (claim_C5_thm oxTmplFail cfgTmpl (str "AB")
      (parsedName (str "Alice Brown")) (parsedUsername (str "Alice Brown"))).1
    (Or.inl rfl) rfl (by decide) (str "bad template") rfl
  exact (claim_C5_thm oxTmplFail cfgTmpl (str "AB")
      (parsedName (str "Alice Brown")) (parsedUsername (str "Alice Brown"))).2
    (str "Alice Brown") rfl (LookupError.templateFailed (str "bad template")) h1

/-- C9: with a fixed configuration and extensionally equal oracle behaviour
(the deterministic-command hypothesis), two lookups with the same initials
return the same value, and successful `Pair`s agree on all four fields. -/
theorem claim_C9_thm (ox1 ox2 : Oracles) (a : Pairs) (initials : List Char)
    (hrun : ∀ i n u, ox1.runLookup i n u = ox2.runLookup i n u)
    (hrend : ∀ t i n u, ox1.renderTemplate t i n u = ox2.renderTemplate t i n u) :
    ByInitials ox1 a initials = ByInitials ox2 a initials
    ∧ ∀ p1 p2 : Pair, ByInitials ox1 a initials = Except.ok p1 →
        ByInitials ox2 a initials = Except.ok p2 →
        p1.Name = p2.Name ∧ p1.Email = p2.Email ∧ p1.Initials = p2.Initials ∧
          p1.Username = p2.Username := by
  have hmain : ByInitials ox1 a initials = ByInitials ox2 a initials := by
    unfold ByInitials buildEmail buildEmailChain
    simp only [hrun, hrend]
  refine ⟨hmain, fun p1 p2 h1 h2 => ?_⟩
  rw [hmain, h2] at h1
  cases h1
  exact ⟨rfl, rfl, rfl, rfl⟩

/-- Oracle bundle extensionally equal to `noOracles` but not syntactically
identical to it. -/
def noOraclesAlt : Oracles :=
  { runLookup := fun _ _ _ => Except.ok ([] ++ []),
    renderTemplate := fun _ _ _ _ => Except.ok ([] ++ []) }

/-- C9 witness: the two extensionally equal oracle bundles give the same
Pair for `AB`. -/
theorem claim_C9_witness :
    ByInitials noOracles cfgAB (str "AB") = ByInitials noOraclesAlt cfgAB (str "AB") :=
  (claim_C9_thm noOracles noOraclesAlt cfgAB (str "AB")
    (fun _ _ _ => rfl) (fun _ _ _ _ => rfl)).1

/-- C8 counterexample: no lookup outcome ever depends on the configured email
prefix — the claim that both `EmailConfig` fields are used by the fallback
strategies fails for the prefix, which `buildEmail` never reads. -/
theorem claim_C8_counterexample : ¬ pfxInfluencesLookup := by
  intro h
  rcases h with ⟨ox, a, p, initials, hne⟩
  exact hne (byInitials_pfx_irrel ox a p initials)

/-- C8 amended: of the two `EmailConfig` fields only the domain is used as a
default by the fallback strategies; the prefix is parsed but never consulted
by any lookup. -/
theorem claim_C8_thm :
    (∀ (ox : Oracles) (a : Pairs) (p initials : List Char),
        ByInitials ox (withPfx a p) initials = ByInitials ox a initials)
    ∧ ∃ (ox : Oracles) (a : Pairs) (d initials : List Char),
        ByInitials ox (withDomain a d) initials ≠ ByInitials ox a initials := by
  refine ⟨fun ox a p initials => byInitials_pfx_irrel ox a p initials, ?_⟩
  exact ⟨noOracles, cfgAB, str "other.org", str "AB", by decide⟩

/-- A successful chain result equals the value selected by the first
applicable strategy among B, C, D, E. -/
lemma chain_applicable (ox : Oracles) (a : Pairs) (initials ps e : List Char)
    (he : buildEmailChain ox a initials (parsedName ps) (parsedUsername ps) = Except.ok e) :
    (match lookupAssoc a.file.EmailAddresses initials with
     | some e0 => e0
     | none =>
       if a.file.EmailTemplate ≠ [] then
         match ox.renderTemplate a.file.EmailTemplate initials (parsedName ps) (parsedUsername ps) with
         | Except.ok out => out
         | Except.error _ => []
       else if parsedUsername ps ≠ [] then
         trimSpace (parsedUsername ps) ++ '@' :: a.file.Email.Domain
       else
         match nameBranch (parsedName ps) a.file.Email.Domain with
         | Except.ok e0 => e0
         | Except.error _ => []) = e := by
  rcases h1 : lookupAssoc a.file.EmailAddresses initials with _ | e0
  · by_cases h2 : a.file.EmailTemplate = []
    · by_cases h3 : parsedUsername ps = []
      · rw [chain_nameBranch ox a initials _ _ h1 h2 h3] at he
        simp only [h2, h3, ne_eq, not_true_eq_false, if_false]
        rw [he]
      · rw [chain_username ox a initials _ _ h1 h2 h3] at he
        simp only [h2, h3, ne_eq, not_true_eq_false, not_false_eq_true, if_false, if_true]
        exact Except.ok.inj he
    · rw [chain_template ox a initials _ _ h1 h2] at he
      cases hr : ox.renderTemplate a.file.EmailTemplate initials (parsedName ps) (parsedUsername ps) with
      | error e2 => rw [hr] at he; simp at he
      | ok out =>
        rw [hr] at he
        simp only [ne_eq, h2, not_false_eq_true, if_true, hr]
        simp at he
        exact he
  · rw [chain_override ox a initials _ _ e0 h1] at he
    exact Except.ok.inj he

/-- A successful `buildEmail` result equals the value selected by the first
applicable strategy among A, B, C, D, E. -/
lemma buildEmail_applicable (ox : Oracles) (a : Pairs) (initials ps e : List Char)
    (he : buildEmail ox a initials (parsedName ps) (parsedUsername ps) = Except.ok e) :
    firstApplicableEmail ox a initials (parsedName ps) (parsedUsername ps) = e := by
  unfold firstApplicableEmail
  by_cases hc : a.emailLookup = []
  · rw [buildEmail_no_cmd ox a initials _ _ hc] at he
    simp only [hc, ne_eq, not_true_eq_false, if_false]
    exact chain_applicable ox a initials ps e he
  · cases hr : ox.runLookup initials (parsedName ps) (parsedUsername ps) with
    | error e2 =>
      rw [buildEmail_cmd_err ox a initials _ _ e2 hc hr] at he
      simp at he
    | ok out =>
      by_cases hne : trimSpace out = []
      · rw [buildEmail_cmd_ok_empty ox a initials _ _ out hc hr hne] at he
        simp only [hc, ne_eq, not_false_eq_true, if_true, hr, hne, not_true_eq_false, if_false]
        exact chain_applicable ox a initials ps e he
      · rw [buildEmail_cmd_ok_nonempty ox a initials _ _ out hc hr hne] at he
        simp only [hc, ne_eq, not_false_eq_true, if_true, hr, hne]
        exact Except.ok.inj he

/-- C1 counterexample: with the override entry `AB: ""` (an empty email
override) the code uses the empty override — Strategy B stops the chain even
on an empty value — while the first strategy yielding a non-empty result
would be D (`ab@example.com`), so the claim as stated fails. -/
theorem claim_C1_counterexample : ¬ claimC1Prop := by
  intro h
  have h2 := h noOracles cfgC1 (str "AB") (str "Alice Brown; ab") rfl
    { Name := str "Alice Brown", Email := [], Initials := str "AB", Username := str "ab" } rfl
  exact absurd h2 (by decide)

/-- C1 amended: for initials present in the authors map, the email of a
successfully returned `Pair` is produced by the first applicable strategy in
the order A, B, C, D, E — where A applies when a command is configured and
its trimmed output is non-empty, B whenever the initials are in the override
map (its value used even when empty), C whenever a template is configured
(its rendering used even when empty), D when the username is non-empty, and E
otherwise — and in particular a non-empty trimmed command output short-circuits
all later strategies. -/
theorem claim_C1_thm (ox : Oracles) (a : Pairs) (initials ps : List Char)
    (h : lookupAssoc a.file.Pairs initials = some ps) (p : Pair)
    (hp : ByInitials ox a initials = Except.ok p) :
    p.Email = firstApplicableEmail ox a initials (parsedName ps) (parsedUsername ps)
    ∧ ∀ out, a.emailLookup ≠ [] →
        ox.runLookup initials (parsedName ps) (parsedUsername ps) = Except.ok out →
        trimSpace out ≠ [] → p.Email = trimSpace out := by
  rw [byInitials_present ox a initials ps h] at hp
  cases hb : buildEmail ox a initials (parsedName ps) (parsedUsername ps) with
  | error e => rw [hb] at hp; simp at hp
  | ok email =>
    rw [hb] at hp
    simp only [] at hp
    have hpe : p.Email = email := by cases hp; rfl
    constructor
    · rw [hpe]
      exact (buildEmail_applicable ox a initials ps email hb).symm
    · intro out hcmd hrun hne
      rw [hpe]
      have h2 := buildEmail_cmd_ok_nonempty ox a initials _ _ out hcmd hrun hne
      rw [hb] at h2
      exact Except.ok.inj h2

/-- C1 witness: the amended statement evaluated on Scenario 1. -/
theorem claim_C1_witness :
    Pair.Email { Name := str "Alice Brown", Email := str "a.brown@example.com",
                 Initials := str "AB", Username := [] } =
      firstApplicableEmail noOracles cfgAB (str "AB")
        (parsedName (str "Alice Brown")) (parsedUsername (str "Alice Brown")) :=
  (claim_C1_thm noOracles cfgAB (str "AB") (str "Alice Brown") rfl
    { Name := str "Alice Brown", Email := str "a.brown@example.com",
      Initials := str "AB", Username := [] } rfl).1

/-- Whether the text ends with a newline character. -/
def endsWithNl : List Char → Bool
  | [] => false
  | [c] => c == '\n'
  | _ :: cs => endsWithNl cs

lemma endsWithNl_decomp : ∀ (s : List Char), endsWithNl s = true → ∃ w, s = w ++ ['\n'] := by
  intro s
  induction s with
  | nil => intro h; simp [endsWithNl] at h
  | cons c cs ih =>
    intro h
    cases cs with
    | nil =>
      refine ⟨[], ?_⟩
      have hc : c = '\n' := beq_iff_eq.1 h
      rw [hc]
      rfl
    | cons d t =>
      obtain ⟨w, hw⟩ := ih h
      exact ⟨c :: w, by rw [List.cons_append, ← hw]⟩

lemma lineFlagAfter_endsNl : ∀ (s : List Char) (b : Bool), endsWithNl s = true →
    lineFlagAfter b s = true := by
  intro s
  induction s with
  | nil => intro b h; simp [endsWithNl] at h
  | cons c cs ih =>
    intro b h
    cases cs with
    | nil => exact h
    | cons d t => exact ih (c == '\n') h

lemma startsWith_append_of_le : ∀ (p s t : List Char), p.length ≤ s.length →
    startsWith p (s ++ t) = startsWith p s := by
  intro p
  induction p with
  | nil => intro s t _; rfl
  | cons x xs ih =>
    intro s t hl
    cases s with
    | nil => simp at hl
    | cons y ys =>
      have hl2 : xs.length ≤ ys.length := by
        simp [List.length_cons] at hl
        omega
      simp only [List.cons_append, startsWith, List.append_eq]
      rw [ih ys t hl2]

lemma startsWith_no_newline : ∀ (w p v : List Char), ('\n' ∈ p → False) →
    w.length < p.length → startsWith p (w ++ '\n' :: v) = false := by
  intro w
  induction w with
  | nil =>
    intro p v hmem hlen
    cases p with
    | nil => simp at hlen
    | cons x xs =>
      have hx : (x == '\n') = false := by
        cases hq : (x == '\n') with
        | false => rfl
        | true =>
          have hxe : x = '\n' := beq_iff_eq.1 hq
          exact (hmem (List.mem_cons.mpr (Or.inl hxe.symm))).elim
      simp only [List.nil_append, startsWith, hx, Bool.false_and]
  | cons a w' ih =>
    intro p v hmem hlen
    cases p with
    | nil => simp at hlen
    | cons x xs =>
      have hlen2 : w'.length < xs.length := by
        simp [List.length_cons] at hlen
        omega
      simp only [List.cons_append, startsWith, List.append_eq]
      rw [ih xs v (fun hm => hmem (List.mem_cons_of_mem x hm)) hlen2]
      simp

lemma replAux_nochange : ∀ (s : List Char) (b : Bool), containsAnchored b s = false →
    replAux 0 b s = s := by
  intro s
  induction s with
  | nil => intro b _; rfl
  | cons c cs ih =>
    intro b h
    simp only [containsAnchored, Bool.or_eq_false_iff] at h
    obtain ⟨h1, h2⟩ := h
    simp only [replAux, h1, Bool.false_eq_true, if_false]
    rw [ih (c == '\n') h2]

/-- Scanning a prefix that contains no line-anchored `pairs:` occurrence and
ends at a line boundary copies it verbatim, whatever follows. -/
lemma replAux_append : ∀ (pre : List Char) (b : Bool) (X : List Char),
    containsAnchored b pre = false → (pre = [] ∨ endsWithNl pre = true) →
    replAux 0 b (pre ++ X) = pre ++ replAux 0 (lineFlagAfter b pre) X := by
  intro pre
  induction pre with
  | nil => intro b X _ _; rfl
  | cons c cs ih =>
    intro b X h hend
    have hend' : endsWithNl (c :: cs) = true := by
      rcases hend with h0 | h0
      · cases h0
      · exact h0
    simp only [containsAnchored, Bool.or_eq_false_iff] at h
    obtain ⟨h1, h2⟩ := h
    have hcond : (b && startsWith pairsLit (c :: (cs ++ X))) = false := by
      cases hb : b with
      | false => rfl
      | true =>
        rw [hb, Bool.true_and] at h1
        rw [Bool.true_and, ← List.cons_append]
        by_cases hlen : pairsLit.length ≤ (c :: cs).length
        · rw [startsWith_append_of_le pairsLit (c :: cs) X hlen]
          exact h1
        · obtain ⟨w, hw⟩ := endsWithNl_decomp (c :: cs) hend'
          have hwlen : w.length < pairsLit.length := by
            have hlw : (c :: cs).length = w.length + 1 := by rw [hw]; simp
            omega
          rw [hw, List.append_assoc]
          simp only [List.cons_append, List.nil_append]
          exact startsWith_no_newline w pairsLit X (by decide) hwlen
    have hcs : cs = [] ∨ endsWithNl cs = true := by
      cases cs with
      | nil => exact Or.inl rfl
      | cons d t => exact Or.inr hend'
    simp only [List.cons_append, replAux, List.append_eq, hcond, Bool.false_eq_true, if_false]
    rw [ih (c == '\n') X h2 hcs]
    rfl

lemma replAux_pairs (rest : List Char) :
    replAux 0 true (pairsLit ++ rest) = authorsLit ++ replAux 0 false rest := rfl

lemma replAux_authors (rest : List Char) :
    replAux 0 true (authorsLit ++ rest) = authorsLit ++ replAux 0 false rest := rfl

/-- YAML oracle used by the C6 witness (its behaviour is irrelevant, any
fixed function works). -/
def umErr : List Char → Except (List Char) pairsFile := fun s => Except.error s

/-- C6: a document whose top-level key is the legacy `pairs` (at the start of
a line, with no other line-anchored `pairs:` occurrence) loads to the same
result as the same document with the key `authors`; the rewrite happens on
the source text before the structural parser runs, and it touches only
line-anchored occurrences of the key token — a document with no line-anchored
`pairs:` is passed through unchanged even if `pairs:` occurs mid-line. -/
theorem claim_C6_thm (um : List Char → Except (List Char) pairsFile)
    (pre rest emailLookup : List Char)
    (hpre : containsAnchored true pre = false)
    (hend : pre = [] ∨ endsWithNl pre = true)
    (hrest : containsAnchored false rest = false) :
    NewPairsFromContents um (pre ++ pairsLit ++ rest) emailLookup =
      NewPairsFromContents um (pre ++ authorsLit ++ rest) emailLookup
    ∧ ∀ s, containsAnchored true s = false → replacePairsKey s = s := by
  have hflag : lineFlagAfter true pre = true := by
    rcases hend with h0 | h0
    · rw [h0]; rfl
    · exact lineFlagAfter_endsNl pre true h0
  have hrw : replacePairsKey (pre ++ pairsLit ++ rest) = pre ++ (authorsLit ++ rest) := by
    unfold replacePairsKey
    rw [List.append_assoc, replAux_append pre true (pairsLit ++ rest) hpre hend, hflag,
        replAux_pairs rest, replAux_nochange rest false hrest]
  have hrw2 : replacePairsKey (pre ++ authorsLit ++ rest) = pre ++ (authorsLit ++ rest) := by
    unfold replacePairsKey
    rw [List.append_assoc, replAux_append pre true (authorsLit ++ rest) hpre hend, hflag,
        replAux_authors rest, replAux_nochange rest false hrest]
  refine ⟨?_, fun s hs => replAux_nochange s true hs⟩
  unfold NewPairsFromContents
  rw [hrw, hrw2]

/-- C6 witness (Scenario 5): a document using the legacy `pairs:` key after an
`email:` section loads identically to the `authors:` spelling. -/
theorem claim_C6_witness :
    NewPairsFromContents umErr (str "email:\n" ++ pairsLit ++ str "\n  AB: x\n") [] =
      NewPairsFromContents umErr (str "email:\n" ++ authorsLit ++ str "\n  AB: x\n") [] :=
  (claim_C6_thm umErr (str "email:\n") (str "\n  AB: x\n") []
    (by decide) (Or.inr (by decide)) (by decide)).1
